import Mathlib

/-!
Verification of the AI Productivity Dashboard's persistence layer
(`src/database.py`) and response-processing logic (`src/app.py`),
as a shallow embedding.

JSON text is modelled at the level of decoded values: the inductive
type `Json` stands both for a decoded Python value and for the
serialized text that decodes to it (so `json.dumps` / `json.loads`
on the task list become `tasksToJson` / `tasksOfJson`).
Wall-clock timestamps (`CURRENT_TIMESTAMP`) are modelled as natural
numbers supplied by the environment at each insert.
-/

namespace Dashboard

/-- Decoded JSON values (results of the host JSON decoder).  Numbers are
modelled as integers; no claim touches numeric payloads. -/
inductive Json where
  | null : Json
  | bool : Bool → Json
  | num : Int → Json
  | str : String → Json
  | arr : List Json → Json
  | obj : List (String × Json) → Json

/-- One action item as held in `st.session_state.tasks`: the dictionary
built at app.py line 102 with keys `task` and `done`. -/
structure Task where
  task : Json
  done : Bool

/-- `json.dumps` applied to one task dictionary (database.py line 30),
at the value level. -/
def taskToJson (t : Task) : Json :=
  Json.obj [("task", t.task), ("done", Json.bool t.done)]

/-- `json.dumps(tasks)` (database.py line 30): the serialized form of the
whole task list. -/
def tasksToJson (ts : List Task) : Json :=
  Json.arr (ts.map taskToJson)

/-- Decoding one task dictionary back (the caller's structured access:
app.py lines 119-121 reads `task['task']`, and a `done` key is present
in every stored dictionary). -/
def taskOfJson : Json → Option Task
  | Json.obj kvs =>
      match kvs.lookup "task", kvs.lookup "done" with
      | some tv, some (Json.bool b) => some { task := tv, done := b }
      | _, _ => none
  | _ => none

/-- Decoding a list of task dictionaries, element by element. -/
def tasksOfJsonList : List Json → Option (List Task)
  | [] => some []
  | j :: js =>
      match taskOfJson j, tasksOfJsonList js with
      | some t, some ts => some (t :: ts)
      | _, _ => none

/-- `json.loads` applied to a stored `tasks` column (app.py line 119),
expecting the array shape written by `insert_analysis`. -/
def tasksOfJson : Json → Option (List Task)
  | Json.arr l => tasksOfJsonList l
  | _ => none

/-- Storage-layer errors surfaced by the embedded engine. -/
inductive SqlErr where
  | noSuchTable : SqlErr
  | tableExists : SqlErr
deriving DecidableEq

/-- One row of the `analyses` table. -/
structure Row where
  id : Nat
  created_at : Nat
  summary : Json
  tasks : Json

/-- The SQLite database `history.db`: whether the `analyses` table exists,
its rows in insertion order, and the next AUTOINCREMENT id. -/
structure DB where
  hasTable : Bool
  rows : List Row
  nextId : Nat

/-- A fresh database file: no table yet, AUTOINCREMENT starts at 1. -/
def emptyDB : DB := { hasTable := false, rows := [], nextId := 1 }

/-- Semantics of the `CREATE TABLE` statement: without `IF NOT EXISTS`
it errors when the table exists; with it, it is a no-op in that case. -/
def sqlCreateTableStmt (ifNotExists : Bool) (db : DB) : Except SqlErr DB :=
  if db.hasTable then
    if ifNotExists then Except.ok db else Except.error SqlErr.tableExists
  else Except.ok { db with hasTable := true }

/-- `create_table` (database.py lines 13-25): executes
`CREATE TABLE IF NOT EXISTS analyses (...)`. -/
def create_table (db : DB) : Except SqlErr DB :=
  sqlCreateTableStmt true db

/-- `insert_analysis` (database.py lines 28-34): serializes the task list
with `json.dumps` and appends one row; `id` and `created_at` are assigned
by the engine (AUTOINCREMENT and `CURRENT_TIMESTAMP`, the latter supplied
here as `now`).  Errors if the table does not exist. -/
def insert_analysis (summary : Json) (tasks : List Task) (db : DB) (now : Nat) :
    Except SqlErr DB :=
  if db.hasTable then
    Except.ok { db with
      rows := db.rows ++
        [{ id := db.nextId, created_at := now, summary := summary,
           tasks := tasksToJson tasks }],
      nextId := db.nextId + 1 }
  else Except.error SqlErr.noSuchTable

/-- Insertion step of the `ORDER BY created_at DESC` sort. -/
def insertDesc (r : Row) : List Row → List Row
  | [] => [r]
  | x :: xs =>
      if x.created_at ≤ r.created_at then r :: x :: xs
      else x :: insertDesc r xs

/-- `ORDER BY created_at DESC`, realised as an insertion sort. -/
def sortByCreatedDesc : List Row → List Row
  | [] => []
  | x :: xs => insertDesc x (sortByCreatedDesc xs)

/-- `get_all_analyses` (database.py lines 36-41): returns all rows ordered
by `created_at` descending; errors if the table does not exist. -/
def get_all_analyses (db : DB) : Except SqlErr (List Row) :=
  if db.hasTable then Except.ok (sortByCreatedDesc db.rows)
  else Except.error SqlErr.noSuchTable

/-- The history display's on-demand decoding of a stored record's tasks
(app.py line 119, `json.loads(record['tasks'])`). -/
def history_tasks (r : Row) : Option (List Task) :=
  tasksOfJson r.tasks

/-- The combined observable state: the per-session DashboardState
(`st.session_state.ai_summary`, `st.session_state.tasks`) together with
the store. -/
structure SystemState where
  summary : Json
  tasks : List Task
  db : DB

/-- Assignment `st.session_state.tasks[i]['done'] = v` (app.py line 135);
indices come from `enumerate`, so out-of-range is never exercised and is
modelled as a no-op. -/
def setDone : List Task → Nat → Bool → List Task
  | [], _, _ => []
  | t :: ts, 0, v => { t with done := v } :: ts
  | t :: ts, Nat.succ i, v => t :: setDone ts i v

/-- The checkbox toggle (app.py lines 134-135): flips one task's `done`
flag in DashboardState only. -/
def toggle_task (st : SystemState) (i : Nat) (v : Bool) : SystemState :=
  { st with tasks := setDone st.tasks i v }

/-- Python iteration `for item in x` over a decoded JSON value: lists
yield their elements, strings yield their one-character substrings,
anything else raises TypeError (`none`). -/
def pyIterList : Json → Option (List Json)
  | Json.arr l => some l
  | Json.str s => some (s.toList.map fun c => Json.str (String.mk [c]))
  | _ => none

/-- `ai_data.get("summary", "No summary provided.")` (app.py line 100). -/
def json_contract_summary (obj : List (String × Json)) : Json :=
  (obj.lookup "summary").getD (Json.str "No summary provided.")

/-- `ai_data.get("action_items", [])` (app.py line 101). -/
def json_contract_items (obj : List (String × Json)) : Json :=
  (obj.lookup "action_items").getD (Json.arr [])

/-- Python truthiness of the decoded object bound to `ai_data`
(the guard `if ai_data:`, app.py line 99): a dict is truthy iff it is
nonempty, so the empty object is skipped just like `None`. -/
def pyTruthyObj (obj : List (String × Json)) : Bool :=
  !obj.isEmpty

/-- The body of the guarded processing block (app.py lines 100-103):
overwrite the session summary, rebuild the session task list with
`done = False`, then insert one row.  The callers run it only when the
`if ai_data:` truthiness guard (line 99, `pyTruthyObj`) passes.  An
uncaught exception (non-iterable `action_items`, or a storage error)
aborts the block with the partially updated state, modelled as
`Except.error`. -/
def processAiData (obj : List (String × Json)) (st : SystemState) (now : Nat) :
    Except SystemState SystemState :=
  let st1 : SystemState := { st with summary := json_contract_summary obj }
  match pyIterList (json_contract_items obj) with
  | none => Except.error st1
  | some l =>
      let st2 : SystemState :=
        { st1 with tasks := l.map fun item => { task := item, done := false } }
      match insert_analysis st2.summary st2.tasks st2.db now with
      | Except.ok db2 => Except.ok { st2 with db := db2 }
      | Except.error _ => Except.error st2

/-- Index of the first occurrence of a character in a list. -/
def firstIdxFrom (c : Char) : List Char → Option Nat
  | [] => none
  | x :: xs => if x = c then some 0 else (firstIdxFrom c xs).map (· + 1)

/-- Index of the last occurrence of a character in a list. -/
def lastIdxOf (c : Char) (l : List Char) : Option Nat :=
  (firstIdxFrom c l.reverse).map (fun k => l.length - 1 - k)

/-- `clean_json_response` (app.py lines 44-48): the leftmost greedy match
of the regex `\x7b.*\x7d` with DOTALL, i.e. the substring from the first
opening brace to the last closing brace, provided that closing brace
comes after the opening one; otherwise the regex does not match and the
function returns `None`. -/
def clean_json_response (s : String) : Option String :=
  match firstIdxFrom '{' s.toList, lastIdxOf '}' s.toList with
  | some f, some l =>
      if f < l then some (String.mk ((s.toList.drop f).take (l - f + 1)))
      else none
  | _, _ => none

/-- User-visible messages emitted by the analyze-button handler. -/
inductive Msg where
  | warnEmpty : Msg
  | errorApi : Msg
  | errorNoJson : Msg
  | successMock : Msg
  | successLive : Msg
deriving DecidableEq

/-- The `USE_MOCK_API` switch (app.py lines 12-15). -/
inductive Mode where
  | mock : Mode
  | live : Mode

/-- Value of the switch in the source (app.py line 15). -/
def USE_MOCK_API : Bool := true

/-- The hard-coded mock reply (app.py lines 66-74), as a decoded object. -/
def mock_response : List (String × Json) :=
  [("summary", Json.str "The team discussed the Q4 product launch. Key decisions were made regarding the marketing budget and the final feature set. The main blocker is the pending design approval for the new logo."),
   ("action_items", Json.arr
     [Json.str "Finalize the Q4 marketing budget by EOD Friday.",
      Json.str "Get final sign-off on the new logo design from management.",
      Json.str "Schedule a follow-up meeting to review the launch timeline.",
      Json.str "Update the project documentation with the agreed feature set."])]

/-- Observable outcome of one click of the Analyze button: resulting
state, messages shown, whether `json.loads` ran, how many rows were
written, and whether the script run died on an uncaught exception. -/
structure ClickResult where
  state : SystemState
  msgs : List Msg
  parseAttempted : Bool
  rowsInserted : Nat
  crashed : Bool

/-- The Analyze-button handler (app.py lines 56-105).  `loads` abstracts
`json.loads` on the extracted text (`none` = raised); `api` abstracts the
live `model.generate_content` call (`none` = raised, `some text` = the
reply's text).  `now` is the wall clock at the insert. -/
def analyze_click (mode : Mode) (loads : String → Option (List (String × Json)))
    (api : Option String) (user_input : String) (st : SystemState) (now : Nat) :
    ClickResult :=
  if user_input = "" then
    { state := st, msgs := [Msg.warnEmpty], parseAttempted := false,
      rowsInserted := 0, crashed := false }
  else
    match mode with
    | Mode.mock =>
        if pyTruthyObj mock_response then
          match processAiData mock_response st now with
          | Except.ok st2 =>
              { state := st2, msgs := [Msg.successMock], parseAttempted := false,
                rowsInserted := 1, crashed := false }
          | Except.error st2 =>
              { state := st2, msgs := [Msg.successMock], parseAttempted := false,
                rowsInserted := 0, crashed := true }
        else
          { state := st, msgs := [Msg.successMock], parseAttempted := false,
            rowsInserted := 0, crashed := false }
    | Mode.live =>
        match api with
        | none =>
            { state := st, msgs := [Msg.errorApi], parseAttempted := false,
              rowsInserted := 0, crashed := false }
        | some text =>
            match clean_json_response text with
            | none =>
                { state := st, msgs := [Msg.errorNoJson], parseAttempted := false,
                  rowsInserted := 0, crashed := false }
            | some cleaned =>
                match loads cleaned with
                | none =>
                    { state := st, msgs := [Msg.errorApi], parseAttempted := true,
                      rowsInserted := 0, crashed := false }
                | some obj =>
                    if pyTruthyObj obj then
                      match processAiData obj st now with
                      | Except.ok st2 =>
                          { state := st2, msgs := [Msg.successLive],
                            parseAttempted := true, rowsInserted := 1, crashed := false }
                      | Except.error st2 =>
                          { state := st2, msgs := [Msg.successLive],
                            parseAttempted := true, rowsInserted := 0, crashed := true }
                    else
                      { state := st, msgs := [Msg.successLive],
                        parseAttempted := true, rowsInserted := 0, crashed := false }

/-- Connection-lifecycle events of one store operation. -/
inductive DbEvent where
  | openConn : DbEvent
  | execStmt : DbEvent
  | commitTx : DbEvent
  | closeConn : DbEvent
deriving DecidableEq

/-- Connection events of `create_table` (database.py lines 13-25):
open, execute, commit, close in straight line, with no try/finally; an
exception from the statement propagates before commit and close run.
The boolean result records whether the operation raised. -/
def create_table_events (execRaises : Bool) : List DbEvent × Bool :=
  if execRaises then ([DbEvent.openConn, DbEvent.execStmt], true)
  else ([DbEvent.openConn, DbEvent.execStmt, DbEvent.commitTx, DbEvent.closeConn],
        false)

/-- Connection events of `insert_analysis` (database.py lines 28-34):
same straight-line shape as `create_table`. -/
def insert_analysis_events (execRaises : Bool) : List DbEvent × Bool :=
  if execRaises then ([DbEvent.openConn, DbEvent.execStmt], true)
  else ([DbEvent.openConn, DbEvent.execStmt, DbEvent.commitTx, DbEvent.closeConn],
        false)

/-- Connection events of `get_all_analyses` (database.py lines 36-41):
open, execute-and-fetch, close — it never commits; an exception from the
statement propagates before close runs. -/
def get_all_analyses_events (execRaises : Bool) : List DbEvent × Bool :=
  if execRaises then ([DbEvent.openConn, DbEvent.execStmt], true)
  else ([DbEvent.openConn, DbEvent.execStmt, DbEvent.closeConn], false)

/-- One insert request: what the caller passes plus the wall-clock value
the engine stamps on the row. -/
structure Entry where
  summary : Json
  tasks : List Task
  now : Nat

/-- The row that `insert_analysis` writes for an entry under a given id. -/
def mkRow (id : Nat) (e : Entry) : Row :=
  { id := id, created_at := e.now, summary := e.summary,
    tasks := tasksToJson e.tasks }

/-- The rows written by a sequence of entries, ids assigned consecutively. -/
def mkRows (startId : Nat) : List Entry → List Row
  | [] => []
  | e :: es => mkRow startId e :: mkRows (startId + 1) es

/-- Performing a sequence of inserts. -/
def insertAll : List Entry → DB → Except SqlErr DB
  | [], db => Except.ok db
  | e :: es, db =>
      match insert_analysis e.summary e.tasks db e.now with
      | Except.ok db2 => insertAll es db2
      | Except.error err => Except.error err

/-- The database right after startup (`db.create_table()`, app.py line 24)
on a fresh file. -/
def initDB : DB := { hasTable := true, rows := [], nextId := 1 }

/-! ## Helper lemmas -/

theorem pyTruthyObj_eq_true (obj : List (String × Json)) :
    pyTruthyObj obj = true ↔ obj ≠ [] := by
  cases obj <;> simp [pyTruthyObj]

theorem taskOfJson_taskToJson (t : Task) : taskOfJson (taskToJson t) = some t := by
  cases t; rfl

theorem tasksOfJsonList_map_taskToJson (ts : List Task) :
    tasksOfJsonList (ts.map taskToJson) = some ts := by
  induction ts with
  | nil => rfl
  | cons t ts ih =>
      simp only [List.map_cons, tasksOfJsonList, taskOfJson_taskToJson t, ih]

/-- Round trip: decoding the serialized task list recovers it exactly. -/
theorem tasksOfJson_tasksToJson (ts : List Task) :
    tasksOfJson (tasksToJson ts) = some ts := by
  simp only [tasksToJson, tasksOfJson, tasksOfJsonList_map_taskToJson]

theorem mem_insertDesc (r y : Row) (l : List Row) :
    y ∈ insertDesc r l ↔ y = r ∨ y ∈ l := by
  induction l with
  | nil => simp [insertDesc]
  | cons x xs ih =>
      by_cases h : x.created_at ≤ r.created_at
      · simp only [insertDesc, if_pos h, List.mem_cons]
      · simp only [insertDesc, if_neg h, List.mem_cons, ih]
        tauto

theorem mem_sortByCreatedDesc (y : Row) (l : List Row) :
    y ∈ sortByCreatedDesc l ↔ y ∈ l := by
  induction l with
  | nil => simp [sortByCreatedDesc]
  | cons x xs ih =>
      simp only [sortByCreatedDesc, mem_insertDesc, ih, List.mem_cons]

theorem insertDesc_of_lt_all (r : Row) (m : List Row)
    (h : ∀ y ∈ m, r.created_at < y.created_at) :
    insertDesc r m = m ++ [r] := by
  induction m with
  | nil => rfl
  | cons y ys ih =>
      have hy : r.created_at < y.created_at := h y (List.mem_cons_self y ys)
      simp only [insertDesc, if_neg (Nat.not_le.mpr hy), List.cons_append]
      rw [ih (fun z hz => h z (List.mem_cons_of_mem y hz))]

theorem sortByCreatedDesc_append_max (l : List Row) (r : Row)
    (h : ∀ x ∈ l, x.created_at < r.created_at) :
    sortByCreatedDesc (l ++ [r]) = r :: sortByCreatedDesc l := by
  induction l with
  | nil => rfl
  | cons x xs ih =>
      have hx : x.created_at < r.created_at := h x (List.mem_cons_self x xs)
      have ih2 := ih (fun y hy => h y (List.mem_cons_of_mem x hy))
      rw [List.cons_append, sortByCreatedDesc, ih2, insertDesc,
        if_neg (Nat.not_le.mpr hx), sortByCreatedDesc]

/-- Sorting a list whose timestamps are strictly ascending reverses it. -/
theorem sortByCreatedDesc_of_ascending (l : List Row)
    (h : List.Pairwise (fun a b => a.created_at < b.created_at) l) :
    sortByCreatedDesc l = l.reverse := by
  induction l with
  | nil => rfl
  | cons x xs ih =>
      rw [List.pairwise_cons] at h
      simp only [sortByCreatedDesc, ih h.2, List.reverse_cons]
      exact insertDesc_of_lt_all x xs.reverse
        (fun y hy => h.1 y (List.mem_reverse.mp hy))

theorem pairwise_insertDesc (r : Row) (l : List Row)
    (h : List.Pairwise (fun a b => b.created_at ≤ a.created_at) l) :
    List.Pairwise (fun a b => b.created_at ≤ a.created_at) (insertDesc r l) := by
  induction l with
  | nil => simp [insertDesc]
  | cons x xs ih =>
      rw [List.pairwise_cons] at h
      by_cases hc : x.created_at ≤ r.created_at
      · rw [insertDesc, if_pos hc, List.pairwise_cons]
        refine ⟨?_, List.Pairwise.cons h.1 h.2⟩
        intro y hy
        rcases List.mem_cons.mp hy with hyx | hyxs
        · exact hyx ▸ hc
        · exact Nat.le_trans (h.1 y hyxs) hc
      · rw [insertDesc, if_neg hc, List.pairwise_cons]
        refine ⟨?_, ih h.2⟩
        intro y hy
        rcases (mem_insertDesc r y xs).mp hy with hyr | hyxs
        · exact hyr ▸ Nat.le_of_lt (Nat.not_le.mp hc)
        · exact h.1 y hyxs

/-- `get_all_analyses` output is always sorted newest-first. -/
theorem pairwise_sortByCreatedDesc (l : List Row) :
    List.Pairwise (fun a b => b.created_at ≤ a.created_at) (sortByCreatedDesc l) := by
  induction l with
  | nil => simp [sortByCreatedDesc]
  | cons x xs ih => exact pairwise_insertDesc x (sortByCreatedDesc xs) ih

theorem mkRows_length (startId : Nat) (es : List Entry) :
    (mkRows startId es).length = es.length := by
  induction es generalizing startId with
  | nil => rfl
  | cons e es ih => simp [mkRows, ih]

theorem created_at_of_mem_mkRows (startId : Nat) (es : List Entry) (r : Row)
    (h : r ∈ mkRows startId es) : ∃ e ∈ es, r.created_at = e.now := by
  induction es generalizing startId with
  | nil => simp [mkRows] at h
  | cons e es ih =>
      rcases List.mem_cons.mp h with hr | hr
      · exact ⟨e, List.mem_cons_self e es, by rw [hr]; rfl⟩
      · obtain ⟨e2, he2, hc⟩ := ih (startId + 1) hr
        exact ⟨e2, List.mem_cons_of_mem e he2, hc⟩

theorem pairwise_mkRows (startId : Nat) (es : List Entry)
    (h : List.Pairwise (fun a b => a.now < b.now) es) :
    List.Pairwise (fun a b => a.created_at < b.created_at) (mkRows startId es) := by
  induction es generalizing startId with
  | nil => simp [mkRows]
  | cons e es ih =>
      rw [List.pairwise_cons] at h
      rw [mkRows, List.pairwise_cons]
      refine ⟨?_, ih (startId + 1) h.2⟩
      intro r hr
      obtain ⟨e2, he2, hc⟩ := created_at_of_mem_mkRows (startId + 1) es r hr
      rw [hc]
      exact h.1 e2 he2

theorem insert_analysis_ok (s : Json) (ts : List Task) (db : DB) (now : Nat)
    (h : db.hasTable = true) :
    insert_analysis s ts db now = Except.ok
      { hasTable := db.hasTable,
        rows := db.rows ++
          [{ id := db.nextId, created_at := now, summary := s,
             tasks := tasksToJson ts }],
        nextId := db.nextId + 1 } := by
  simp [insert_analysis, h]

theorem insertAll_ok (es : List Entry) (db : DB) (h : db.hasTable = true) :
    insertAll es db = Except.ok
      { hasTable := true, rows := db.rows ++ mkRows db.nextId es,
        nextId := db.nextId + es.length } := by
  induction es generalizing db with
  | nil =>
      obtain ⟨ht, rows, nid⟩ := db
      subst h
      simp [insertAll, mkRows]
  | cons e es ih =>
      obtain ⟨ht, rows, nid⟩ := db
      subst h
      rw [insertAll]
      have hstep : insert_analysis e.summary e.tasks (DB.mk true rows nid) e.now =
          Except.ok (DB.mk true
            (rows ++ [{ id := nid, created_at := e.now, summary := e.summary,
                        tasks := tasksToJson e.tasks }]) (nid + 1)) := rfl
      rw [hstep]
      show insertAll es (DB.mk true
            (rows ++ [{ id := nid, created_at := e.now, summary := e.summary,
                        tasks := tasksToJson e.tasks }]) (nid + 1)) =
          Except.ok (DB.mk true (rows ++ mkRows nid (e :: es)) (nid + (e :: es).length))
      rw [ih _ rfl]
      simp only [Except.ok.injEq, DB.mk.injEq, List.length_cons, true_and]
      constructor
      · simp [mkRows, mkRow, List.append_assoc, List.singleton_append]
      · ring

/-! ## Character-index lemmas for the extraction model -/

theorem firstIdxFrom_le (c : Char) (l : List Char) (i : Nat) (hc : l[i]? = some c) :
    ∃ f, firstIdxFrom c l = some f ∧ f ≤ i ∧ l[f]? = some c := by
  induction l generalizing i with
  | nil => simp at hc
  | cons x xs ih =>
      by_cases hx : x = c
      · exact ⟨0, by simp [firstIdxFrom, hx], Nat.zero_le i, by simp [hx]⟩
      · cases i with
        | zero =>
            rw [List.getElem?_cons_zero, Option.some.injEq] at hc
            exact absurd hc hx
        | succ i =>
            rw [List.getElem?_cons_succ] at hc
            obtain ⟨f, hf, hfi, hfc⟩ := ih i hc
            refine ⟨f + 1, ?_, Nat.succ_le_succ hfi, by simpa using hfc⟩
            simp [firstIdxFrom, hx, hf]

theorem firstIdxFrom_lt_length (c : Char) (l : List Char) (f : Nat)
    (h : firstIdxFrom c l = some f) : f < l.length := by
  induction l generalizing f with
  | nil => simp [firstIdxFrom] at h
  | cons x xs ih =>
      by_cases hx : x = c
      · simp [firstIdxFrom, hx] at h
        simp only [List.length_cons]
        omega
      · simp only [firstIdxFrom, if_neg hx, Option.map_eq_some'] at h
        obtain ⟨f2, hf2, hplus⟩ := h
        have := ih f2 hf2
        simp only [List.length_cons]
        omega

theorem firstIdxFrom_getElem (c : Char) (l : List Char) (f : Nat)
    (h : firstIdxFrom c l = some f) : l[f]? = some c := by
  induction l generalizing f with
  | nil => simp [firstIdxFrom] at h
  | cons x xs ih =>
      by_cases hx : x = c
      · simp only [firstIdxFrom, if_pos hx, Option.some.injEq] at h
        subst h
        simp [hx]
      · simp only [firstIdxFrom, if_neg hx, Option.map_eq_some'] at h
        obtain ⟨f2, hf2, hplus⟩ := h
        subst hplus
        rw [List.getElem?_cons_succ]
        exact ih f2 hf2

theorem lastIdxOf_getElem (c : Char) (l : List Char) (idx : Nat)
    (h : lastIdxOf c l = some idx) : l[idx]? = some c := by
  rw [lastIdxOf, Option.map_eq_some'] at h
  obtain ⟨f, hf, hidx⟩ := h
  subst hidx
  have hflen : f < l.length := by
    have := firstIdxFrom_lt_length c l.reverse f hf
    simpa using this
  have hchar : l.reverse[f]? = some c := firstIdxFrom_getElem c l.reverse f hf
  rw [List.getElem?_reverse (by simpa using hflen)] at hchar
  exact hchar

theorem firstIdxFrom_eq_none (c : Char) (l : List Char) (h : c ∉ l) :
    firstIdxFrom c l = none := by
  induction l with
  | nil => rfl
  | cons x xs ih =>
      rw [List.mem_cons, not_or] at h
      rw [firstIdxFrom, if_neg (fun hxc => h.1 hxc.symm), ih h.2]
      rfl

theorem lastIdxOf_ge (c : Char) (l : List Char) (j : Nat) (hc : l[j]? = some c) :
    ∃ L, lastIdxOf c l = some L ∧ j ≤ L ∧ L < l.length := by
  have hj : j < l.length := by
    rcases List.getElem?_eq_some_iff.mp hc with ⟨h, _⟩
    exact h
  have hrev : l.reverse[l.length - 1 - j]? = some c := by
    rw [List.getElem?_reverse (by omega)]
    have : l.length - 1 - (l.length - 1 - j) = j := by omega
    rw [this]
    exact hc
  obtain ⟨f, hf, hfi, _⟩ := firstIdxFrom_le c l.reverse (l.length - 1 - j) hrev
  have hflen : f < l.length := by
    have := firstIdxFrom_lt_length c l.reverse f hf
    simpa using this
  refine ⟨l.length - 1 - f, ?_, by omega, by omega⟩
  rw [lastIdxOf, hf]
  rfl

/-- Shape of the state produced by a successful run of the processing
block: the session summary and task list are rebuilt from the object
alone, and one row is appended to the store. -/
theorem processAiData_ok_shape (obj : List (String × Json)) (st : SystemState)
    (now : Nat) (st2 : SystemState) (h : processAiData obj st now = Except.ok st2) :
    ∃ l, pyIterList (json_contract_items obj) = some l ∧
      st.db.hasTable = true ∧
      st2 = { summary := json_contract_summary obj,
              tasks := l.map fun item => { task := item, done := false },
              db := { hasTable := st.db.hasTable,
                      rows := st.db.rows ++
                        [{ id := st.db.nextId, created_at := now,
                           summary := json_contract_summary obj,
                           tasks := tasksToJson
                             (l.map fun item => { task := item, done := false }) }],
                      nextId := st.db.nextId + 1 } } := by
  rw [processAiData] at h
  split at h
  · exact absurd h (by simp)
  · next l hl =>
      simp only [insert_analysis] at h
      split at h
      · next db2 hdb2 =>
          split at hdb2
          · next hT =>
              rw [Except.ok.injEq] at hdb2
              subst hdb2
              rw [Except.ok.injEq] at h
              exact ⟨l, hl, hT, h.symm⟩
          · exact absurd hdb2 (by simp)
      · exact absurd h (by simp)

/-- Parse spec of the (unguarded) block body: when it runs and succeeds,
the summary is the object's `summary` value (fallback when absent) and
the tasks are the `action_items` elements in order, all not done. -/
theorem processAiData_parse_spec (obj : List (String × Json)) (st : SystemState)
    (now : Nat) (st2 : SystemState) (h : processAiData obj st now = Except.ok st2) :
    ((∀ s, obj.lookup "summary" = some s → st2.summary = s)
      ∧ (obj.lookup "summary" = none → st2.summary = Json.str "No summary provided."))
    ∧ (∀ l, obj.lookup "action_items" = some (Json.arr l) →
        st2.tasks.map Task.task = l ∧ ∀ t ∈ st2.tasks, t.done = false)
    ∧ (obj.lookup "action_items" = none → st2.tasks = []) := by
  obtain ⟨l, hl, hT, hst2⟩ := processAiData_ok_shape obj st now st2 h
  subst hst2
  refine ⟨⟨?_, ?_⟩, ?_, ?_⟩
  · intro s hs
    simp [json_contract_summary, hs]
  · intro hs
    simp [json_contract_summary, hs]
  · intro l0 hitems
    rw [json_contract_items, hitems, Option.getD_some] at hl
    rw [pyIterList, Option.some.injEq] at hl
    subst hl
    constructor
    · rw [List.map_map]
      have hcomp : (Task.task ∘ fun item => ({ task := item, done := false } : Task)) = id := rfl
      rw [hcomp, List.map_id]
    · intro t ht
      rcases List.mem_map.mp ht with ⟨item, _, hitem⟩
      rw [← hitem]
  · intro hitems
    rw [json_contract_items, hitems, Option.getD_none] at hl
    rw [pyIterList, Option.some.injEq] at hl
    subst hl
    rfl

/-- Witness input for C1. -/
def c1Obj : List (String × Json) :=
  [("summary", Json.str "S"), ("action_items", Json.arr [Json.str "A", Json.str "B"])]

/-- Witness start state for C1 (fresh session over a created table). -/
def c1St : SystemState := { summary := Json.null, tasks := [], db := initDB }

/-- Witness result state for C1. -/
def c1Out : SystemState :=
  { summary := Json.str "S",
    tasks := [{ task := Json.str "A", done := false },
              { task := Json.str "B", done := false }],
    db := { hasTable := true,
            rows := [{ id := 1, created_at := 0, summary := Json.str "S",
                       tasks := Json.arr
                         [Json.obj [("task", Json.str "A"), ("done", Json.bool false)],
                          Json.obj [("task", Json.str "B"), ("done", Json.bool false)]] }],
            nextId := 2 } }

/-- C1 counterexample: a live reply consisting of the empty JSON object
is extracted and decoded successfully (and the success message shown),
yet the `if ai_data:` truthiness guard skips the processing block, since
`bool(dict())` is false in Python: the prior state survives unchanged,
so the fallback summary and the empty task list the claim promises are
never produced, and no row is inserted. -/
theorem C1_counterexample :
    clean_json_response "\x7b\x7d" = some "\x7b\x7d"
    ∧ analyze_click Mode.live (fun _ => some []) (some "\x7b\x7d") "note"
        { summary := Json.str "old",
          tasks := [{ task := Json.str "stale", done := true }],
          db := initDB } 9 =
      { state := { summary := Json.str "old",
                   tasks := [{ task := Json.str "stale", done := true }],
                   db := initDB },
        msgs := [Msg.successLive], parseAttempted := true,
        rowsInserted := 0, crashed := false }
    ∧ Json.str "old" ≠ Json.str "No summary provided."
    ∧ ([{ task := Json.str "stale", done := true }] : List Task) ≠ [] :=
  ⟨rfl, rfl, by simp, by simp⟩

/-- C1 (amended): for every input text from which a JSON object was
extracted and successfully decoded, when the decoded object is nonempty
the handler runs the JSON-contract parse, whose summary equals the
object's `summary` value (the fixed fallback string when absent) and
whose task list equals the `action_items` array element-for-element in
order, all with `done = false` (empty when the key is absent); when the
decoded object is empty, the `if ai_data:` truthiness guard skips the
block and the state and store are unchanged. -/
theorem C1_json_contract_parse
    (loads : String → Option (List (String × Json))) (text input : String)
    (st : SystemState) (now : Nat) (obj : List (String × Json)) (cleaned : String)
    (hinput : input ≠ "") (hclean : clean_json_response text = some cleaned)
    (hloads : loads cleaned = some obj) :
    (obj = [] → analyze_click Mode.live loads (some text) input st now =
      { state := st, msgs := [Msg.successLive], parseAttempted := true,
        rowsInserted := 0, crashed := false })
    ∧ (∀ st2, obj ≠ [] → processAiData obj st now = Except.ok st2 →
        analyze_click Mode.live loads (some text) input st now =
          { state := st2, msgs := [Msg.successLive], parseAttempted := true,
            rowsInserted := 1, crashed := false }
        ∧ ((∀ s, obj.lookup "summary" = some s → st2.summary = s)
          ∧ (obj.lookup "summary" = none → st2.summary = Json.str "No summary provided."))
        ∧ (∀ l, obj.lookup "action_items" = some (Json.arr l) →
            st2.tasks.map Task.task = l ∧ ∀ t ∈ st2.tasks, t.done = false)
        ∧ (obj.lookup "action_items" = none → st2.tasks = [])) := by
  constructor
  · intro hobj
    subst hobj
    rw [analyze_click.eq_def, if_neg hinput]
    simp [hclean, hloads, pyTruthyObj]
  · intro st2 hobj h
    have hg : pyTruthyObj obj = true := (pyTruthyObj_eq_true obj).mpr hobj
    refine ⟨?_, processAiData_parse_spec obj st now st2 h⟩
    rw [analyze_click.eq_def, if_neg hinput]
    simp [hclean, hloads, hg, h]

theorem C1_json_contract_parse_witness :
    c1Obj ≠ []
    ∧ processAiData c1Obj c1St 0 = Except.ok c1Out
    ∧ analyze_click Mode.live (fun _ => some c1Obj) (some "\x7bz\x7d") "note" c1St 0 =
        { state := c1Out, msgs := [Msg.successLive], parseAttempted := true,
          rowsInserted := 1, crashed := false }
    ∧ c1Out.summary = Json.str "S"
    ∧ c1Out.tasks.map Task.task = [Json.str "A", Json.str "B"] := by
  have h := (C1_json_contract_parse (fun _ => some c1Obj) "\x7bz\x7d" "note" c1St 0
    c1Obj "\x7bz\x7d" (by decide) rfl rfl).2 c1Out (by simp [c1Obj]) rfl
  exact ⟨by simp [c1Obj], rfl, h.1, h.2.1.1 _ rfl, (h.2.2.1 _ rfl).1⟩

/-- Replacement spec of the (unguarded) block body: when it runs and
succeeds, the summary is overwritten, the task list is rebuilt from the
new action items alone, exactly one row is appended, and the result is
independent of the prior session state. -/
theorem processAiData_replacement_spec (obj : List (String × Json)) (st : SystemState)
    (now : Nat) (st2 : SystemState) (h : processAiData obj st now = Except.ok st2) :
    st2.summary = json_contract_summary obj
    ∧ (∃ l, pyIterList (json_contract_items obj) = some l ∧
        st2.tasks = l.map fun item => { task := item, done := false })
    ∧ st2.db.rows = st.db.rows ++
        [{ id := st.db.nextId, created_at := now, summary := st2.summary,
           tasks := tasksToJson st2.tasks }]
    ∧ (∀ st0 : SystemState, st0.db = st.db →
        processAiData obj st0 now = Except.ok st2) := by
  obtain ⟨l, hl, hT, hst2⟩ := processAiData_ok_shape obj st now st2 h
  subst hst2
  refine ⟨rfl, ⟨l, hl, rfl⟩, rfl, ?_⟩
  intro st0 hdb
  obtain ⟨s0, t0, db0⟩ := st0
  simp only at hdb
  subst hdb
  simp only [processAiData, hl, insert_analysis, hT, eq_self_iff_true, if_true]

/-- Witness start state for C10, with a nonempty prior session. -/
def c10St : SystemState :=
  { summary := Json.str "old",
    tasks := [{ task := Json.str "stale", done := true }],
    db := initDB }

/-- A second witness start state for C10 sharing only the store. -/
def c10St2 : SystemState := { summary := Json.null, tasks := [], db := initDB }

/-- Witness result state for C10. -/
def c10Out : SystemState :=
  { summary := Json.str "No summary provided.",
    tasks := [{ task := Json.str "A", done := false }],
    db := { hasTable := true,
            rows := [{ id := 1, created_at := 7,
                       summary := Json.str "No summary provided.",
                       tasks := Json.arr
                         [Json.obj [("task", Json.str "A"), ("done", Json.bool false)]] }],
            nextId := 2 } }

/-- C10 counterexample: a live reply decoding to the empty JSON object
counts as an obtained response object, yet the `if ai_data:` truthiness
guard skips the processing block: the DashboardState is not replaced
(the prior summary and tasks survive) and zero rows are inserted,
against the claim's "replaced" and "exactly one new row". -/
theorem C10_counterexample :
    clean_json_response "x\x7b\x7dy" = some "\x7b\x7d"
    ∧ analyze_click Mode.live (fun _ => some []) (some "x\x7b\x7dy") "memo"
        { summary := Json.str "prior",
          tasks := [{ task := Json.str "keep", done := false }],
          db := initDB } 11 =
      { state := { summary := Json.str "prior",
                   tasks := [{ task := Json.str "keep", done := false }],
                   db := initDB },
        msgs := [Msg.successLive], parseAttempted := true,
        rowsInserted := 0, crashed := false }
    ∧ initDB.rows = [] :=
  ⟨rfl, rfl, rfl⟩

/-- C10 (amended): for every successful analysis whose obtained response
object is nonempty (truthy) — always the case in mock mode, whose fixed
object is nonempty — the whole DashboardState is replaced rather than
merged: summary overwritten, task list set to exactly the new action
items with `done = false` (the result does not depend on the prior
session state), and exactly one new row is appended; when the obtained
object is the empty dict, the `if ai_data:` guard skips the block: the
state and store are unchanged and zero rows are inserted. -/
theorem C10_full_replacement
    (loads : String → Option (List (String × Json))) (text input : String)
    (st : SystemState) (now : Nat) (obj : List (String × Json)) (cleaned : String)
    (hinput : input ≠ "") (hclean : clean_json_response text = some cleaned)
    (hloads : loads cleaned = some obj) :
    (obj = [] → analyze_click Mode.live loads (some text) input st now =
      { state := st, msgs := [Msg.successLive], parseAttempted := true,
        rowsInserted := 0, crashed := false })
    ∧ (∀ st2, obj ≠ [] → processAiData obj st now = Except.ok st2 →
        analyze_click Mode.live loads (some text) input st now =
          { state := st2, msgs := [Msg.successLive], parseAttempted := true,
            rowsInserted := 1, crashed := false }
        ∧ st2.summary = json_contract_summary obj
        ∧ (∃ l, pyIterList (json_contract_items obj) = some l ∧
            st2.tasks = l.map fun item => { task := item, done := false })
        ∧ st2.db.rows = st.db.rows ++
            [{ id := st.db.nextId, created_at := now, summary := st2.summary,
               tasks := tasksToJson st2.tasks }]
        ∧ (∀ st0 : SystemState, st0.db = st.db →
            processAiData obj st0 now = Except.ok st2))
    ∧ (∀ st2, processAiData mock_response st now = Except.ok st2 →
        analyze_click Mode.mock loads (some text) input st now =
          { state := st2, msgs := [Msg.successMock], parseAttempted := false,
            rowsInserted := 1, crashed := false }) := by
  refine ⟨?_, ?_, ?_⟩
  · intro hobj
    subst hobj
    rw [analyze_click.eq_def, if_neg hinput]
    simp [hclean, hloads, pyTruthyObj]
  · intro st2 hobj h
    have hg : pyTruthyObj obj = true := (pyTruthyObj_eq_true obj).mpr hobj
    refine ⟨?_, processAiData_replacement_spec obj st now st2 h⟩
    rw [analyze_click.eq_def, if_neg hinput]
    simp [hclean, hloads, hg, h]
  · intro st2 h
    have hg : pyTruthyObj mock_response = true := rfl
    rw [analyze_click.eq_def, if_neg hinput]
    simp [hg, h]

theorem C10_full_replacement_witness :
    ([("action_items", Json.arr [Json.str "A"])] : List (String × Json)) ≠ []
    ∧ processAiData [("action_items", Json.arr [Json.str "A"])] c10St 7 = Except.ok c10Out
    ∧ analyze_click Mode.live (fun _ => some [("action_items", Json.arr [Json.str "A"])])
        (some "\x7bq\x7d") "memo" c10St 7 =
      { state := c10Out, msgs := [Msg.successLive], parseAttempted := true,
        rowsInserted := 1, crashed := false }
    ∧ c10Out.summary = json_contract_summary [("action_items", Json.arr [Json.str "A"])]
    ∧ c10Out.db.rows = c10St.db.rows ++
        [{ id := 1, created_at := 7, summary := c10Out.summary,
           tasks := tasksToJson c10Out.tasks }]
    ∧ processAiData [("action_items", Json.arr [Json.str "A"])] c10St2 7 = Except.ok c10Out := by
  have h := (C10_full_replacement (fun _ => some [("action_items", Json.arr [Json.str "A"])])
    "\x7bq\x7d" "memo" c10St 7 [("action_items", Json.arr [Json.str "A"])] "\x7bq\x7d"
    (by decide) rfl rfl).2.1 c10Out (by simp) rfl
  exact ⟨by simp, rfl, h.1, h.2.1, h.2.2.2.1, h.2.2.2.2 c10St2 rfl⟩

/-- C7: in live mode, when the LLM call raises, the handler recovers with
an error message, leaves the whole state (summary, task list, store)
unchanged, runs no parse, inserts no row, and does not crash. -/
theorem C7_live_api_failure (loads : String → Option (List (String × Json)))
    (input : String) (st : SystemState) (now : Nat) (h : input ≠ "") :
    analyze_click Mode.live loads none input st now =
      { state := st, msgs := [Msg.errorApi], parseAttempted := false,
        rowsInserted := 0, crashed := false } := by
  rw [analyze_click.eq_def, if_neg h]

theorem C7_live_api_failure_witness :
    ("note" : String) ≠ ""
    ∧ analyze_click Mode.live (fun _ => none) none "note"
        { summary := Json.null, tasks := [], db := initDB } 3 =
      { state := { summary := Json.null, tasks := [], db := initDB },
        msgs := [Msg.errorApi], parseAttempted := false,
        rowsInserted := 0, crashed := false } :=
  ⟨by decide,
   C7_live_api_failure (fun _ => none) "note"
     { summary := Json.null, tasks := [], db := initDB } 3 (by decide)⟩

/-- C8: an empty input is rejected with a warning in every mode: no parse
runs, no row is inserted, and the session state and store are unchanged. -/
theorem C8_empty_input_rejected (mode : Mode)
    (loads : String → Option (List (String × Json))) (api : Option String)
    (st : SystemState) (now : Nat) :
    analyze_click mode loads api "" st now =
      { state := st, msgs := [Msg.warnEmpty], parseAttempted := false,
        rowsInserted := 0, crashed := false } := by
  rw [analyze_click.eq_def, if_pos rfl]

/-- C9: `create_table` is idempotent: it never errors, a second call
returns exactly the state produced by the first, and the rows (and the
id counter) are untouched, so no duplicate table or data appears. -/
theorem C9_ensureSchema_idempotent (db : DB) :
    ∃ db2, create_table db = Except.ok db2 ∧ create_table db2 = Except.ok db2
      ∧ db2.rows = db.rows ∧ db2.nextId = db.nextId ∧ db2.hasTable = true := by
  obtain ⟨ht, rows, nid⟩ := db
  cases ht
  · exact ⟨{ hasTable := true, rows := rows, nextId := nid }, rfl, rfl, rfl, rfl, rfl⟩
  · exact ⟨{ hasTable := true, rows := rows, nextId := nid }, rfl, rfl, rfl, rfl, rfl⟩

/-- C4: history is an append-only frozen snapshot: the checkbox toggle
touches only the session task list and never the store; `insert_analysis`
appends exactly one row holding the serialized snapshot of the task list
passed to it, leaving all existing rows in place; `create_table` leaves
rows unchanged; and `get_all_analyses` only returns rows that are in the
store. -/
theorem C4_append_only_snapshot :
    (∀ (st : SystemState) (i : Nat) (v : Bool), (toggle_task st i v).db = st.db)
    ∧ (∀ (s : Json) (ts : List Task) (db : DB) (now : Nat) (db2 : DB),
        insert_analysis s ts db now = Except.ok db2 →
        db2.rows = db.rows ++
          [{ id := db.nextId, created_at := now, summary := s,
             tasks := tasksToJson ts }])
    ∧ (∀ (db db2 : DB), create_table db = Except.ok db2 → db2.rows = db.rows)
    ∧ (∀ (db : DB) (l : List Row), get_all_analyses db = Except.ok l →
        ∀ r ∈ l, r ∈ db.rows) := by
  refine ⟨fun st i v => rfl, ?_, ?_, ?_⟩
  · intro s ts db now db2 h
    rw [insert_analysis] at h
    split at h
    · rw [Except.ok.injEq] at h
      rw [← h]
    · exact absurd h (by simp)
  · intro db db2 h
    rw [create_table, sqlCreateTableStmt] at h
    split at h
    · rw [if_pos rfl, Except.ok.injEq] at h
      rw [← h]
    · rw [Except.ok.injEq] at h
      rw [← h]
  · intro db l h r hr
    rw [get_all_analyses] at h
    split at h
    · rw [Except.ok.injEq] at h
      rw [← h] at hr
      exact (mem_sortByCreatedDesc r db.rows).mp hr
    · exact absurd h (by simp)

theorem C4_append_only_snapshot_witness :
    (toggle_task { summary := Json.null,
                   tasks := [{ task := Json.str "A", done := false }],
                   db := initDB } 0 true).db
      = initDB
    ∧ ({ hasTable := true,
         rows := [{ id := 1, created_at := 4, summary := Json.str "s",
                    tasks := tasksToJson [{ task := Json.str "A", done := false }] }],
         nextId := 2 } : DB).rows
      = initDB.rows ++
          [{ id := 1, created_at := 4, summary := Json.str "s",
             tasks := tasksToJson [{ task := Json.str "A", done := false }] }]
    ∧ (initDB.rows = initDB.rows)
    ∧ ({ id := 1, created_at := 4, summary := Json.str "s",
         tasks := tasksToJson [{ task := Json.str "A", done := false }] } : Row) ∈
        [{ id := 1, created_at := 4, summary := Json.str "s",
           tasks := tasksToJson [{ task := Json.str "A", done := false }] }] := by
  refine ⟨C4_append_only_snapshot.1 _ 0 true, ?_, ?_, ?_⟩
  · exact C4_append_only_snapshot.2.1 (Json.str "s")
      [{ task := Json.str "A", done := false }] initDB 4 _ rfl
  · exact C4_append_only_snapshot.2.2.1 initDB initDB rfl
  · exact C4_append_only_snapshot.2.2.2
      { hasTable := true,
        rows := [{ id := 1, created_at := 4, summary := Json.str "s",
                   tasks := tasksToJson [{ task := Json.str "A", done := false }] }],
        nextId := 2 } _ rfl _ (List.mem_cons_self _ _)

/-- C6 counterexample: the claim as stated is false on the code.
`get_all_analyses` performs no commit even on its normal path, and when
the statement raises inside `create_table` the connection is never
closed (there is no try/finally in database.py). -/
theorem C6_counterexample :
    DbEvent.commitTx ∉ (get_all_analyses_events false).1
    ∧ DbEvent.closeConn ∉ (create_table_events true).1 := by
  decide

/-- C6 (amended): on the normal path `create_table` and `insert_analysis`
open, execute one statement, commit and close, while `get_all_analyses`
opens, executes one statement and closes without ever committing; on the
error path (the statement raises) every operation propagates the
exception after open and execute, skipping both commit and close. -/
theorem C6_connection_discipline :
    create_table_events false =
      ([DbEvent.openConn, DbEvent.execStmt, DbEvent.commitTx, DbEvent.closeConn], false)
    ∧ insert_analysis_events false =
      ([DbEvent.openConn, DbEvent.execStmt, DbEvent.commitTx, DbEvent.closeConn], false)
    ∧ get_all_analyses_events false =
      ([DbEvent.openConn, DbEvent.execStmt, DbEvent.closeConn], false)
    ∧ create_table_events true = ([DbEvent.openConn, DbEvent.execStmt], true)
    ∧ insert_analysis_events true = ([DbEvent.openConn, DbEvent.execStmt], true)
    ∧ get_all_analyses_events true = ([DbEvent.openConn, DbEvent.execStmt], true) :=
  ⟨rfl, rfl, rfl, rfl, rfl, rfl⟩

/-- C5 counterexample: `get_all_analyses` returns the `tasks` field as
the raw serialized JSON text exactly as stored (here: the serialization
of the single inserted task), not as a decoded sequence of Task values;
the decoding is left to the caller. -/
theorem C5_counterexample :
    insert_analysis (Json.str "s") [{ task := Json.str "A", done := false }] initDB 5 =
      Except.ok
        { hasTable := true,
          rows := [{ id := 1, created_at := 5, summary := Json.str "s",
                     tasks := Json.arr [Json.obj [("task", Json.str "A"),
                                                  ("done", Json.bool false)]] }],
          nextId := 2 }
    ∧ get_all_analyses
        { hasTable := true,
          rows := [{ id := 1, created_at := 5, summary := Json.str "s",
                     tasks := Json.arr [Json.obj [("task", Json.str "A"),
                                                  ("done", Json.bool false)]] }],
          nextId := 2 } =
      Except.ok [{ id := 1, created_at := 5, summary := Json.str "s",
                   tasks := Json.arr [Json.obj [("task", Json.str "A"),
                                                ("done", Json.bool false)]] }]
    ∧ Json.arr [Json.obj [("task", Json.str "A"), ("done", Json.bool false)]] =
        tasksToJson [{ task := Json.str "A", done := false }] :=
  ⟨rfl, rfl, rfl⟩

/-- C5 (amended): `get_all_analyses` returns each record's `tasks` field
as the raw serialized JSON text it was stored with; the history-display
caller decodes it on demand, and that decoding recovers exactly the task
sequence that was inserted. -/
theorem C5_serialized_tasks_roundtrip (db : DB) (s : Json) (ts : List Task)
    (now : Nat) (h : db.hasTable = true) :
    ∃ db2 l r, insert_analysis s ts db now = Except.ok db2
      ∧ get_all_analyses db2 = Except.ok l
      ∧ r ∈ l
      ∧ r.tasks = tasksToJson ts
      ∧ history_tasks r = some ts := by
  refine ⟨{ hasTable := db.hasTable,
            rows := db.rows ++ [{ id := db.nextId, created_at := now, summary := s,
                                  tasks := tasksToJson ts }],
            nextId := db.nextId + 1 },
    sortByCreatedDesc (db.rows ++ [{ id := db.nextId, created_at := now, summary := s,
                                     tasks := tasksToJson ts }]),
    { id := db.nextId, created_at := now, summary := s, tasks := tasksToJson ts },
    insert_analysis_ok s ts db now h, ?_, ?_, rfl, ?_⟩
  · simp [get_all_analyses, h]
  · rw [mem_sortByCreatedDesc]
    simp
  · rw [history_tasks]
    exact tasksOfJson_tasksToJson ts

theorem C5_serialized_tasks_roundtrip_witness :
    initDB.hasTable = true
    ∧ ∃ db2 l r,
        insert_analysis (Json.str "s") [{ task := Json.str "A", done := false }] initDB 5 =
          Except.ok db2
        ∧ get_all_analyses db2 = Except.ok l
        ∧ r ∈ l
        ∧ r.tasks = tasksToJson [{ task := Json.str "A", done := false }]
        ∧ history_tasks r = some [{ task := Json.str "A", done := false }] :=
  ⟨rfl, C5_serialized_tasks_roundtrip initDB (Json.str "s")
    [{ task := Json.str "A", done := false }] 5 rfl⟩

/-- C3 counterexample: the input consisting of a single opening brace
contains a brace, yet extraction signals NotFound (the regex needs a
closing brace after the opening one), contradicting the claim that on
every input the substring from the first opening to the last closing
brace is returned and that NotFound arises only when no opening brace
exists. -/
theorem C3_counterexample :
    '{' ∈ ("\x7b" : String).toList ∧ clean_json_response "\x7b" = none :=
  ⟨by decide, rfl⟩

/-- C3 (amended): whenever the input contains an opening brace with some
closing brace after it, extraction returns the substring from the first
opening brace to the last closing brace inclusive; in every other case —
in particular whenever the input has no opening brace at all — it
returns NotFound, and on NotFound the live handler attempts no JSON
parse. -/
theorem C3_extract_first_to_last (s : String) :
    (∀ i j, i < j → s.toList[i]? = some '{' → s.toList[j]? = some '}' →
      ∃ f l, firstIdxFrom '{' s.toList = some f ∧ lastIdxOf '}' s.toList = some l
        ∧ f ≤ i ∧ j ≤ l
        ∧ clean_json_response s =
            some (String.mk ((s.toList.drop f).take (l - f + 1))))
    ∧ ((∀ i, i < s.toList.length → ∀ j, j < s.toList.length → i < j →
        s.toList[i]? = some '{' → s.toList[j]? = some '}' → False) →
      clean_json_response s = none)
    ∧ ('{' ∉ s.toList → clean_json_response s = none)
    ∧ (∀ (loads : String → Option (List (String × Json))) (input : String)
        (st : SystemState) (now : Nat), input ≠ "" → clean_json_response s = none →
        analyze_click Mode.live loads (some s) input st now =
          { state := st, msgs := [Msg.errorNoJson], parseAttempted := false,
            rowsInserted := 0, crashed := false }) := by
  refine ⟨?_, ?_, ?_, ?_⟩
  · intro i j hij hi hj
    obtain ⟨f, hf, hfi, _⟩ := firstIdxFrom_le '{' s.toList i hi
    obtain ⟨l, hl, hjl, _⟩ := lastIdxOf_ge '}' s.toList j hj
    have hfl : f < l := by omega
    refine ⟨f, l, hf, hl, hfi, hjl, ?_⟩
    rw [clean_json_response, hf, hl]
    simp only [hfl, if_true]
  · intro hno
    rw [clean_json_response]
    cases hf : firstIdxFrom '{' s.toList with
    | none => rfl
    | some f =>
        cases hL : lastIdxOf '}' s.toList with
        | none => rfl
        | some L =>
            have hcf := firstIdxFrom_getElem '{' s.toList f hf
            have hcL := lastIdxOf_getElem '}' s.toList L hL
            have hflen : f < s.toList.length := firstIdxFrom_lt_length '{' s.toList f hf
            have hLlen : L < s.toList.length := by
              rcases List.getElem?_eq_some_iff.mp hcL with ⟨hlen, _⟩
              exact hlen
            have hnot : ¬ f < L := fun hfl => hno f hflen L hLlen hfl hcf hcL
            show (if f < L then
                some (String.mk ((s.toList.drop f).take (L - f + 1))) else none) = none
            rw [if_neg hnot]
  · intro hno
    rw [clean_json_response, firstIdxFrom_eq_none '{' s.toList hno]
  · intro loads input st now hinput hclean
    rw [analyze_click.eq_def, if_neg hinput]
    simp only [hclean]

theorem C3_extract_first_to_last_witness :
    (∃ f l, firstIdxFrom '{' ("a\x7bb\x7dc" : String).toList = some f
      ∧ lastIdxOf '}' ("a\x7bb\x7dc" : String).toList = some l
      ∧ f ≤ 1 ∧ 3 ≤ l
      ∧ clean_json_response "a\x7bb\x7dc" =
          some (String.mk ((("a\x7bb\x7dc" : String).toList.drop f).take (l - f + 1))))
    ∧ clean_json_response "\x7d\x7b" = none
    ∧ analyze_click Mode.live (fun _ => none) (some "no braces here") "note"
        { summary := Json.null, tasks := [], db := initDB } 2 =
      { state := { summary := Json.null, tasks := [], db := initDB },
        msgs := [Msg.errorNoJson], parseAttempted := false,
        rowsInserted := 0, crashed := false } :=
  ⟨(C3_extract_first_to_last "a\x7bb\x7dc").1 1 3 (by decide) (by decide) (by decide),
   (C3_extract_first_to_last "\x7d\x7b").2.1 (by
     intro i hi j hj hij hvi hvj
     have hlen : ("\x7d\x7b" : String).toList.length = 2 := rfl
     rw [hlen] at hi hj
     cases i with
     | zero => exact absurd hvi (by decide)
     | succ n => omega),
   (C3_extract_first_to_last "no braces here").2.2.2 (fun _ => none) "note"
     { summary := Json.null, tasks := [], db := initDB } 2 (by decide) rfl⟩

/-- C2: `insert_analysis` followed immediately by `get_all_analyses`
yields as its first record exactly what was inserted (same summary, and
the stored serialized tasks decode back to the inserted list), with the
rest being the previous history, provided the engine stamps the new row
with a timestamp strictly fresher than every existing row's; N inserts
with strictly increasing timestamps into a fresh store yield exactly N
records, newest-first (the reverse of insertion order); and every
`get_all_analyses` result is sorted by `created_at` descending. -/
theorem C2_insert_getAll_roundtrip :
    (∀ (db : DB) (s : Json) (ts : List Task) (now : Nat),
      db.hasTable = true → (∀ r ∈ db.rows, r.created_at < now) →
      ∃ db2 r rest, insert_analysis s ts db now = Except.ok db2
        ∧ get_all_analyses db2 = Except.ok (r :: rest)
        ∧ r.summary = s ∧ history_tasks r = some ts
        ∧ get_all_analyses db = Except.ok rest)
    ∧ (∀ es : List Entry, List.Pairwise (fun a b => a.now < b.now) es →
      ∃ db2, insertAll es initDB = Except.ok db2
        ∧ get_all_analyses db2 = Except.ok (mkRows 1 es).reverse
        ∧ (mkRows 1 es).reverse.length = es.length)
    ∧ (∀ (db : DB) (l : List Row), get_all_analyses db = Except.ok l →
        List.Pairwise (fun a b => b.created_at ≤ a.created_at) l) := by
  refine ⟨?_, ?_, ?_⟩
  · intro db s ts now hT hfresh
    refine ⟨_, { id := db.nextId, created_at := now, summary := s,
                 tasks := tasksToJson ts },
      sortByCreatedDesc db.rows,
      insert_analysis_ok s ts db now hT, ?_, rfl, ?_, ?_⟩
    · have hsort := sortByCreatedDesc_append_max db.rows
        { id := db.nextId, created_at := now, summary := s,
          tasks := tasksToJson ts } hfresh
      simp [get_all_analyses, hT, hsort]
    · rw [history_tasks]
      exact tasksOfJson_tasksToJson ts
    · simp [get_all_analyses, hT]
  · intro es hes
    refine ⟨_, insertAll_ok es initDB rfl, ?_, ?_⟩
    · have hsort := sortByCreatedDesc_of_ascending (mkRows 1 es)
        (pairwise_mkRows 1 es hes)
      simp [get_all_analyses, initDB, hsort]
    · rw [List.length_reverse, mkRows_length]
  · intro db l h
    rw [get_all_analyses] at h
    split at h
    · rw [Except.ok.injEq] at h
      rw [← h]
      exact pairwise_sortByCreatedDesc db.rows
    · exact absurd h (by simp)

theorem C2_insert_getAll_roundtrip_witness :
    (∃ db2 r rest,
      insert_analysis (Json.str "x") [{ task := Json.str "A", done := false }] initDB 1 =
        Except.ok db2
      ∧ get_all_analyses db2 = Except.ok (r :: rest)
      ∧ r.summary = Json.str "x"
      ∧ history_tasks r = some [{ task := Json.str "A", done := false }]
      ∧ get_all_analyses initDB = Except.ok rest)
    ∧ (∃ db2,
      insertAll [{ summary := Json.str "a", tasks := [], now := 0 },
                 { summary := Json.str "b", tasks := [], now := 1 }] initDB =
        Except.ok db2
      ∧ get_all_analyses db2 =
          Except.ok (mkRows 1 [{ summary := Json.str "a", tasks := [], now := 0 },
                               { summary := Json.str "b", tasks := [], now := 1 }]).reverse
      ∧ (mkRows 1 [{ summary := Json.str "a", tasks := [], now := 0 },
                   { summary := Json.str "b", tasks := [], now := 1 }]).reverse.length = 2)
    ∧ List.Pairwise (fun a b : Row => b.created_at ≤ a.created_at) [] :=
  ⟨C2_insert_getAll_roundtrip.1 initDB (Json.str "x")
     [{ task := Json.str "A", done := false }] 1 rfl (by simp [initDB]),
   C2_insert_getAll_roundtrip.2.1

     [{ summary := Json.str "a", tasks := [], now := 0 },
      { summary := Json.str "b", tasks := [], now := 1 }] (by decide),
   C2_insert_getAll_roundtrip.2.2 initDB [] rfl⟩

end Dashboard
